import Mathlib

/-! Verification of the zerv-security policy definition and resolution
engine.

The JavaScript sources are shallowly embedded:
* dynamic JS objects become ordered association lists of `Val`ues (`Obj`);
* `_.assign`, `_.find` and property lookups become explicit functions with
  JS semantics (later sources of an assign override earlier ones, absent
  properties read as `none`, lookups return the first match);
* thrown exceptions become `Except String`, with the same message strings
  and the same message-appending on rethrow as the source;
* the module-level mutable registries of security-definition.service.js
  (`dictionary`, `resourceTypes`, `policies`, `conditionFactories`) become
  an explicit `ModuleState` threaded through the loaders, because the
  `find`/`findSetting`/`findProtectedResourceByName` closures attached to a
  returned snapshot read those module variables at call time.
-/

namespace ZervSecurity

/-- A JS value as used by the security configuration objects. -/
inductive Val where
  | str (s : String)
  | num (n : Int)
  | bool (b : Bool)
deriving DecidableEq

/-- A JS object: an ordered association list of properties. -/
abbrev Obj := List (String × Val)

/-- Property read (`o[k]`): first match, `none` models `undefined`. -/
def objGet : Obj → String → Option Val
  | [], _ => none
  | kv :: rest, k => if kv.1 = k then some kv.2 else objGet rest k

/-- Whether the object has the property. -/
def objHasKey : Obj → String → Bool
  | [], _ => false
  | kv :: rest, k => kv.1 = k || objHasKey rest k

/-- Numeric property read; a missing or non-numeric property reads as `none`. -/
def objGetNum (o : Obj) (k : String) : Option Int :=
  match objGet o k with
  | some (.num n) => some n
  | _ => none

/-- JS property assignment `o[k] = v`: overwrite in place keeping the key's
original insertion position, or append a new key. -/
def objSet (o : Obj) (k : String) (v : Val) : Obj :=
  if objHasKey o k then
    o.map (fun kv => if kv.1 = k then (k, v) else kv)
  else
    o ++ [(k, v)]

/-- Model of `_.assign` of `src` over a copy of `target`: copy each own property of
`src` over `target` in order, so `src` properties win. -/
def jsAssign (target src : Obj) : Obj :=
  src.foldl (fun acc kv => objSet acc kv.1 kv.2) target

/-- JS `>` on two possibly-undefined numbers: any comparison against
`undefined` is `false` (NaN semantics). -/
def jsNumGt : Option Int → Option Int → Bool
  | some a, some b => a > b
  | some _, none => false
  | none, _ => false

/-- JS truthiness of a `Val`. -/
def jsTruthy : Val → Bool
  | .str s => s ≠ ""
  | .num n => n ≠ 0
  | .bool b => b

section ObjLemmas

theorem objGet_mapSet_self (o : Obj) (k : String) (v : Val)
    (h : objHasKey o k = true) :
    objGet (o.map (fun kv => if kv.1 = k then (k, v) else kv)) k = some v := by
  induction o with
  | nil => simp [objHasKey] at h
  | cons kv rest ih =>
    by_cases hk : kv.1 = k
    · simp [objGet, hk]
    · have hrest : objHasKey rest k = true := by
        simpa [objHasKey, hk] using h
      simpa [objGet, hk] using ih hrest

theorem objGet_append_single_self (o : Obj) (k : String) (v : Val)
    (h : objHasKey o k = false) :
    objGet (o ++ [(k, v)]) k = some v := by
  induction o with
  | nil => simp [objGet]
  | cons kv rest ih =>
    have hk : ¬ kv.1 = k := by
      intro hc
      simp [objHasKey, hc] at h
    have hrest : objHasKey rest k = false := by
      simpa [objHasKey, hk] using h
    simpa [objGet, hk] using ih hrest

theorem objGet_objSet_self (o : Obj) (k : String) (v : Val) :
    objGet (objSet o k v) k = some v := by
  unfold objSet
  by_cases h : objHasKey o k
  · rw [if_pos h]
    exact objGet_mapSet_self o k v h
  · rw [if_neg h]
    exact objGet_append_single_self o k v (by simpa using h)

theorem objGet_mapSet_ne (o : Obj) (k k2 : String) (v : Val) (hne : k2 ≠ k) :
    objGet (o.map (fun kv => if kv.1 = k then (k, v) else kv)) k2 =
      objGet o k2 := by
  induction o with
  | nil => rfl
  | cons kv rest ih =>
    by_cases hk : kv.1 = k
    · have hk2 : ¬ kv.1 = k2 := by
        intro hc
        exact hne (hc ▸ hk)
      have hkk2 : ¬ k = k2 := fun hc => hne hc.symm
      simpa [objGet, hk, hk2, hkk2] using ih
    · by_cases hk2 : kv.1 = k2
      · simp [objGet, hk, hk2, hne]
      · simpa [objGet, hk, hk2] using ih

theorem objGet_append_single_ne (o : Obj) (k k2 : String) (v : Val)
    (hne : k2 ≠ k) :
    objGet (o ++ [(k, v)]) k2 = objGet o k2 := by
  induction o with
  | nil => simp [objGet, show ¬ k = k2 from fun hc => hne hc.symm]
  | cons kv rest ih =>
    by_cases hk2 : kv.1 = k2
    · simp [objGet, hk2]
    · simpa [objGet, hk2] using ih

theorem objGet_objSet_ne (o : Obj) (k k2 : String) (v : Val) (hne : k2 ≠ k) :
    objGet (objSet o k v) k2 = objGet o k2 := by
  unfold objSet
  by_cases h : objHasKey o k
  · rw [if_pos h]
    exact objGet_mapSet_ne o k k2 v hne
  · rw [if_neg h]
    exact objGet_append_single_ne o k k2 v hne

theorem objGet_eq_none_of_not_mem (o : Obj) (k : String)
    (h : k ∉ o.map Prod.fst) :
    objGet o k = none := by
  induction o with
  | nil => rfl
  | cons kv rest ih =>
    have hk : ¬ kv.1 = k := by
      intro hc
      exact h (by simp [hc])
    have hrest : k ∉ rest.map Prod.fst := by
      intro hc
      exact h (by simp [hc])
    simpa [objGet, hk] using ih hrest

/-- Lookup through `_.assign(\x7b\x7d, target, src)`: a property present on
`src` wins, otherwise the `target` property shows through. `src` is required
to have no duplicate keys, as JS objects cannot. -/
theorem objGet_jsAssign (t s : Obj) (k : String)
    (hnd : (s.map Prod.fst).Nodup) :
    objGet (jsAssign t s) k =
      match objGet s k with
      | some v => some v
      | none => objGet t k := by
  induction s generalizing t with
  | nil => simp [jsAssign, objGet]
  | cons kv rest ih =>
    have hnd2 : (rest.map Prod.fst).Nodup := by
      simpa using hnd.of_cons
    have hstep : jsAssign t (kv :: rest) = jsAssign (objSet t kv.1 kv.2) rest := by
      simp [jsAssign]
    rw [hstep, ih (objSet t kv.1 kv.2) hnd2]
    by_cases hk : kv.1 = k
    · have hnotin : k ∉ rest.map Prod.fst := by
        have := hnd
        rw [List.map_cons, List.nodup_cons] at this
        exact hk ▸ this.1
      rw [objGet_eq_none_of_not_mem rest k hnotin]
      simp [objGet, hk, hk ▸ objGet_objSet_self t kv.1 kv.2]
    · rw [objGet_objSet_ne t kv.1 k kv.2 (fun hc => hk hc.symm)]
      simp [objGet, hk]

end ObjLemmas

/-! Part: Configuration data model (security-definition.service.js inputs)

Absent string properties are modelled as `""`, which is what JS falsiness
checks (`assert(x)`, `if (!x)`) cannot distinguish from the empty string;
genuinely optional non-string properties use `Option`. -/

/-- A condition factory: a named bag of predicate functions
`(policyParams, contextParams) -> boolean`. -/
structure CondFactory where
  factory : String
  fns : List (String × (Obj → Obj → Bool))

/-- A resource type configuration object. `apply` is `none` when the config
provides no apply function (`_.isFunction` fails); `env` is `none` when the
`env` property is absent. -/
structure ResourceTypeCfg where
  name : String
  env : Option (List String) := none
  apply : Option (Obj → Obj → Val) := none
  settings : List Obj := []

/-- A dictionary entry (protected resource configuration). The `id` assigned
from `UUID.generate()` is never read by this code base and is not modelled. -/
structure ProtectedResourceCfg where
  name : String
  type : String := ""
  locator : String := ""
  defaultSetting : String := ""
  params : Obj := []
deriving DecidableEq

/-- One grant inside a policy setting's `protectedResources` list. -/
structure PolicyGrantCfg where
  resource : String
  setting : String := ""
  params : Obj := []
deriving DecidableEq

/-- One policy setting. `condition = ""` models an absent condition;
`protectedResources = none` models an absent grant list (the validator
mutates it to `[]`). -/
structure PolicySettingCfg where
  setting : String
  notes : String := ""
  condition : String := ""
  params : Obj := []
  protectedResources : Option (List PolicyGrantCfg) := none
deriving DecidableEq

/-- A policy configuration object. `settings = none` models an absent
`settings` property (empty lists are truthy in JS and pass the assert). -/
structure PolicyCfg where
  name : String
  description : String := ""
  defaultSetting : String := ""
  settings : Option (List PolicySettingCfg) := none
deriving DecidableEq

/-- The configuration object handed to `load`. -/
structure SecurityConfig where
  resourceTypes : List ResourceTypeCfg := []
  dictionary : List ProtectedResourceCfg := []
  policies : List PolicyCfg := []
  conditionFactories : List CondFactory := []
  defaultRole : String := ""

/-! Part: Condition resolution (user-policy.model.js getPolicyConditionImplementation) -/

/-- Index of the first `.` in a string, as `condition.indexOf('.')`. -/
def indexOfDot (s : String) : Option Nat :=
  s.toList.findIdx? (fun c => c = '.')

/-- Model of `condition.substring(0, period)`. -/
def strTake (s : String) (n : Nat) : String :=
  String.mk (s.toList.take n)

/-- Model of `condition.substring(period + 1)`. -/
def strDrop (s : String) (n : Nat) : String :=
  String.mk (s.toList.drop n)

/-- Model of `getPolicyConditionImplementation`: a policy setting with no condition
gets an always-true closure; otherwise the condition string is split at its
first period into factory and function name, both are resolved once, and the
returned closure calls the predicate with `(policySetting.params,
contextParams)`. Any resolution failure is rethrown with the
`Unknown security condition` context appended, as in the source `catch`. -/
def getPolicyConditionImplementation
    (getPolicyConditionFactory : String → Except String CondFactory)
    (policySetting : PolicySettingCfg) : Except String (Obj → Bool) :=
  if policySetting.condition = "" then
    .ok (fun _ => true)
  else
    let attempt : Except String (Obj → Bool) :=
      match indexOfDot policySetting.condition with
      | none => .error "No security name defined"
      | some period =>
        let factoryName := strTake policySetting.condition period
        match getPolicyConditionFactory factoryName with
        | .error e => .error e
        | .ok conditionGroup =>
          let conditionName := strDrop policySetting.condition (period + 1)
          match conditionGroup.fns.lookup conditionName with
          | none =>
            .error ("No condition implementation [" ++ conditionName ++
              "] in [" ++ factoryName ++ "]")
          | some conditionFn =>
            .ok (fun contextParams => conditionFn policySetting.params contextParams)
    match attempt with
    | .error e =>
      .error (e ++ "- Unknown security condition [" ++ policySetting.condition ++
        "] for policy setting [" ++ policySetting.setting ++ "]")
    | .ok f => .ok f

/-! Part: Compiled user policy (user-policy.model.js) -/

/-- A dictionary resource after compilation: `type` replaced by the resolved
resource type object (`_.find` result, possibly `undefined`) and
`defaultSetting` replaced by the built setting object. -/
structure CompiledResource where
  name : String
  type : Option ResourceTypeCfg
  locator : String
  defaultSetting : Obj
  params : Obj

/-- A compiled policy setting: the original config fields plus the resolved
`checkIfEnabled` closure and the owning policy's name (the source stores the
whole policy object; only its name is ever read, for log output). -/
structure CompiledPolicySetting where
  setting : String
  condition : String
  params : Obj
  checkIfEnabled : Obj → Bool
  policyName : String

/-- One contributed entry on a protected resource (`resourceConfig` pushed by
`addPolicyResourceSettingToProtectedResource`): the grant with its string
references replaced by the resolved resource and built setting object. -/
structure CompiledResourceConfig where
  resource : CompiledResource
  setting : Obj
  params : Obj
  policySetting : CompiledPolicySetting

/-- The compiled protected resource object built by
`buildProtectedResourceObject`. -/
structure CompiledProtectedResource where
  resource : CompiledResource
  settings : List CompiledResourceConfig
  target : String
  apply : Option (Obj → Obj → Val)

/-- Model of `buildResourceSettingObject`: look the setting value up in the resource
type's setting list and assign it over the caller params
(`_.assign(\x7b\x7d, params, settingObject)`). Reading `.settings` off an
unresolved (`undefined`) type is a JS TypeError, modelled as an error. -/
def buildResourceSettingObject (resource : CompiledResource) (setting : String)
    (params : Obj) : Except String Obj :=
  match resource.type with
  | none => .error "TypeError: cannot read settings of undefined resource type"
  | some t =>
    match t.settings.find? (fun s => objGet s "value" = some (.str setting)) with
    | some settingObject => .ok (jsAssign params settingObject)
    | none => .ok (jsAssign params [])

/-- One step of the `computeResourceSetting` loop body: if the entry's policy
condition is enabled for the context, keep whichever of the accumulated and
the entry's setting has the strictly lower numeric `priority` (the
accumulated one survives ties); a disabled entry leaves the accumulator
untouched. -/
def resolveStep (contextParams : Obj) (finalSetting : Option Obj)
    (resourceConfig : CompiledResourceConfig) : Option Obj :=
  if resourceConfig.policySetting.checkIfEnabled contextParams then
    match finalSetting with
    | none => some resourceConfig.setting
    | some f =>
      if jsNumGt (objGetNum f "priority") (objGetNum resourceConfig.setting "priority") then
        some resourceConfig.setting
      else
        some f
  else
    finalSetting

/-- Model of `computeResourceSetting`: fold the contributed entries in order keeping
the enabled entry of lowest priority, and fall back to the resource's
compiled default setting when no entry survives. -/
def computeResourceSetting (protectedResource : CompiledProtectedResource)
    (contextParams : Obj) : Obj :=
  match protectedResource.settings.foldl (resolveStep contextParams) none with
  | none => protectedResource.resource.defaultSetting
  | some s => s

/-- The settings of the entries whose condition is enabled for the given
context, in contributed order. -/
def enabledSettings (protectedResource : CompiledProtectedResource)
    (contextParams : Obj) : List Obj :=
  (protectedResource.settings.filter
    (fun rc => rc.policySetting.checkIfEnabled contextParams)).map
    (fun rc => rc.setting)

/-- The numeric priority of a built setting object. -/
def prio (s : Obj) : Option Int :=
  objGetNum s "priority"

/-- The priority as an integer, defaulting to 0; only used in statements that
separately require the priority to be present. -/
def prioD (s : Obj) : Int :=
  (prio s).getD 0

/-- The `computeResourceSetting` loop body restricted to the settings of
enabled entries (the shape it takes once disabled entries are dropped). -/
def minStep (finalSetting : Option Obj) (s : Obj) : Option Obj :=
  match finalSetting with
  | none => some s
  | some f => if jsNumGt (prio f) (prio s) then some s else some f

section ResolutionLemmas

theorem jsNumGt_eq_decide (a b : Option Int) (ha : a.isSome) (hb : b.isSome) :
    jsNumGt a b = decide (a.getD 0 > b.getD 0) := by
  obtain ⟨x, hx⟩ := Option.isSome_iff_exists.mp ha
  obtain ⟨y, hy⟩ := Option.isSome_iff_exists.mp hb
  subst hx hy
  rfl

theorem resolveStep_enabled (ctx : Obj) (acc : Option Obj)
    (rc : CompiledResourceConfig)
    (h : rc.policySetting.checkIfEnabled ctx = true) :
    resolveStep ctx acc rc = minStep acc rc.setting := by
  simp [resolveStep, minStep, prio, h]

theorem resolveStep_disabled (ctx : Obj) (acc : Option Obj)
    (rc : CompiledResourceConfig)
    (h : rc.policySetting.checkIfEnabled ctx = false) :
    resolveStep ctx acc rc = acc := by
  simp [resolveStep, h]

/-- Folding the loop body over the contributed entries is the same as folding
the priority comparison over the settings of the enabled entries. -/
theorem foldl_resolveStep_eq (ctx : Obj) (l : List CompiledResourceConfig)
    (acc : Option Obj) :
    l.foldl (resolveStep ctx) acc =
      ((l.filter (fun rc => rc.policySetting.checkIfEnabled ctx)).map
        (fun rc => rc.setting)).foldl minStep acc := by
  induction l generalizing acc with
  | nil => rfl
  | cons rc rest ih =>
    by_cases h : rc.policySetting.checkIfEnabled ctx
    · rw [List.foldl_cons, resolveStep_enabled ctx acc rc h,
        List.filter_cons_of_pos (by simpa using h), List.map_cons,
        List.foldl_cons]
      exact ih (minStep acc rc.setting)
    · rw [List.foldl_cons,
        resolveStep_disabled ctx acc rc (by simpa using h),
        List.filter_cons_of_neg (by simpa using h)]
      exact ih acc

/-- The priority fold started on a first candidate returns the first
candidate of lowest priority: everything strictly before the result has
strictly greater priority, and nothing anywhere has smaller priority. -/
theorem minFold_first_lowest (l : List Obj) :
    ∀ f : Obj, (prio f).isSome → (∀ x ∈ l, (prio x).isSome) →
    ∃ r l1 l2, l.foldl minStep (some f) = some r ∧
      f :: l = l1 ++ r :: l2 ∧
      (∀ x ∈ l1, prioD x > prioD r) ∧
      (∀ x ∈ f :: l, prioD r ≤ prioD x) := by
  induction l with
  | nil =>
    intro f _ _
    refine ⟨f, [], [], rfl, rfl, by simp, ?_⟩
    intro y hy
    simp only [List.mem_singleton] at hy
    subst hy
    exact le_refl _
  | cons s rest ih =>
    intro f hf hl
    have hs : (prio s).isSome := hl s (by simp)
    have hrest : ∀ x ∈ rest, (prio x).isSome := fun x hx => hl x (by simp [hx])
    rw [List.foldl_cons]
    by_cases hgt : jsNumGt (prio f) (prio s) = true
    · have hfs : prioD f > prioD s := by
        rw [jsNumGt_eq_decide (prio f) (prio s) hf hs] at hgt
        simpa [prioD] using hgt
      have hstep : minStep (some f) s = some s := by
        simp [minStep, hgt]
      rw [hstep]
      obtain ⟨r, l1, l2, hfold, hdecomp, hbefore, hmin⟩ := ih s hs hrest
      have hrs : prioD r ≤ prioD s := hmin s (by simp)
      refine ⟨r, f :: l1, l2, hfold, by rw [List.cons_append, ← hdecomp], ?_, ?_⟩
      · intro y hy
        rcases List.mem_cons.mp hy with hy | hy
        · subst hy
          exact lt_of_le_of_lt hrs hfs
        · exact hbefore y hy
      · intro y hy
        rcases List.mem_cons.mp hy with hy | hy
        · subst hy
          exact le_of_lt (lt_of_le_of_lt hrs hfs)
        · exact hmin y hy
    · have hfs : prioD f ≤ prioD s := by
        rw [jsNumGt_eq_decide (prio f) (prio s) hf hs] at hgt
        simpa [prioD] using hgt
      have hstep : minStep (some f) s = some f := by
        simp [minStep, hgt]
      rw [hstep]
      obtain ⟨r, l1, l2, hfold, hdecomp, hbefore, hmin⟩ := ih f hf hrest
      cases l1 with
      | nil =>
        simp only [List.nil_append, List.cons.injEq] at hdecomp
        obtain ⟨hfr, hrl2⟩ := hdecomp
        subst hfr
        refine ⟨f, [], s :: rest, hfold, by simp, by simp, ?_⟩
        intro y hy
        rcases List.mem_cons.mp hy with hy | hy
        · subst hy
          exact le_refl _
        · rcases List.mem_cons.mp hy with hy | hy
          · subst hy
            exact hfs
          · exact hmin y (by simp [hy])
      | cons a l1t =>
        simp only [List.cons_append, List.cons.injEq] at hdecomp
        obtain ⟨haf, hrest2⟩ := hdecomp
        rw [← haf] at hbefore
        have hfr : prioD f > prioD r := hbefore f (by simp)
        refine ⟨r, f :: s :: l1t, l2, hfold, ?_, ?_, ?_⟩
        · rw [hrest2]
          simp
        · intro y hy
          rcases List.mem_cons.mp hy with hy | hy
          · subst hy
            exact hfr
          · rcases List.mem_cons.mp hy with hy | hy
            · subst hy
              exact lt_of_lt_of_le hfr hfs
            · exact hbefore y (by simp [hy])
        · intro y hy
          rcases List.mem_cons.mp hy with hy | hy
          · subst hy
            exact hmin y (by simp)
          · rcases List.mem_cons.mp hy with hy | hy
            · subst hy
              exact le_of_lt (lt_of_lt_of_le hfr hfs)
            · exact hmin y (by simp [hy])

/-- Model of `computeResourceSetting` equals the priority fold over the enabled
settings, with the compiled default as fallback. -/
theorem computeResourceSetting_eq_minFold (pr : CompiledProtectedResource)
    (ctx : Obj) :
    computeResourceSetting pr ctx =
      match (enabledSettings pr ctx).foldl minStep none with
      | none => pr.resource.defaultSetting
      | some s => s := by
  unfold computeResourceSetting enabledSettings
  rw [foldl_resolveStep_eq]

end ResolutionLemmas

/-- C1: among the condition-enabled contributed entries of a protected
resource (at least one, each carrying a numeric priority), resolution by
`computeResourceSetting` (the function behind `calculateSetting`) returns the
setting of lowest numeric priority, and on ties the one contributed first:
the returned setting occurs in the enabled list with only strictly greater
priorities before it and no smaller priority anywhere. Reproducibility
across repeated runs holds because `computeResourceSetting` is a pure
function of its two arguments. -/
theorem claim1_resolution_lowest_priority_first_wins
    (pr : CompiledProtectedResource) (ctx : Obj)
    (hne : enabledSettings pr ctx ≠ [])
    (hnum : ∀ s ∈ enabledSettings pr ctx, (prio s).isSome) :
    ∃ r l1 l2, computeResourceSetting pr ctx = r ∧
      enabledSettings pr ctx = l1 ++ r :: l2 ∧
      (∀ x ∈ l1, prioD x > prioD r) ∧
      (∀ x ∈ enabledSettings pr ctx, prioD r ≤ prioD x) := by
  obtain ⟨f, l, he⟩ : ∃ f l, enabledSettings pr ctx = f :: l := by
    cases h : enabledSettings pr ctx with
    | nil => exact absurd h hne
    | cons f l => exact ⟨f, l, rfl⟩
  have hf : (prio f).isSome := hnum f (by rw [he]; simp)
  have hl : ∀ x ∈ l, (prio x).isSome := fun x hx => hnum x (by rw [he]; simp [hx])
  obtain ⟨r, l1, l2, hfoldr, hdecomp, hbefore, hmin⟩ := minFold_first_lowest l f hf hl
  refine ⟨r, l1, l2, ?_, by rw [he, hdecomp], hbefore, ?_⟩
  · rw [computeResourceSetting_eq_minFold, he, List.foldl_cons]
    have hnone : minStep none f = some f := rfl
    rw [hnone, hfoldr]
  · intro x hx
    rw [he] at hx
    exact hmin x hx

def exCtx : Obj := []

def exSettingHide : Obj := [("value", .str "hide"), ("priority", .num 0)]

def exSettingShow : Obj := [("value", .str "show"), ("priority", .num 1)]

def exType : ResourceTypeCfg :=
  { name := "AppMenuItem", env := some ["client"], apply := none,
    settings := [exSettingShow, exSettingHide] }

def exResource : CompiledResource :=
  { name := "AccountMenu", type := some exType, locator := "account.menu",
    defaultSetting := exSettingShow, params := [] }

def exPolicySettingOn : CompiledPolicySetting :=
  { setting := "on", condition := "", params := [],
    checkIfEnabled := fun _ => true, policyName := "p1" }

def exPolicySettingOff : CompiledPolicySetting :=
  { setting := "off", condition := "check.never", params := [],
    checkIfEnabled := fun _ => false, policyName := "p2" }

def exEntryShow : CompiledResourceConfig :=
  { resource := exResource, setting := exSettingShow, params := [],
    policySetting := exPolicySettingOn }

def exEntryHide : CompiledResourceConfig :=
  { resource := exResource, setting := exSettingHide, params := [],
    policySetting := exPolicySettingOn }

def exEntryDisabled : CompiledResourceConfig :=
  { resource := exResource, setting := exSettingHide, params := [],
    policySetting := exPolicySettingOff }

def exPR : CompiledProtectedResource :=
  { resource := exResource, settings := [exEntryShow, exEntryHide],
    target := "AppMenuItem", apply := none }

def exPRDisabled : CompiledProtectedResource :=
  { resource := exResource, settings := [exEntryDisabled],
    target := "AppMenuItem", apply := none }

def exPRMixed : CompiledProtectedResource :=
  { resource := exResource,
    settings := [exEntryShow, exEntryHide, exEntryDisabled],
    target := "AppMenuItem", apply := none }

/-- Witness for C1 at a concrete two-entry resource. -/
theorem claim1_witness :
    ∃ r l1 l2, computeResourceSetting exPR exCtx = r ∧
      enabledSettings exPR exCtx = l1 ++ r :: l2 ∧
      (∀ x ∈ l1, prioD x > prioD r) ∧
      (∀ x ∈ enabledSettings exPR exCtx, prioD r ≤ prioD x) :=
  claim1_resolution_lowest_priority_first_wins exPR exCtx (by decide) (by decide)

/-- C2: a protected resource with no contributed entry, or all of whose
entries are disabled by their condition for the given context, resolves to
the resource's compiled dictionary default setting, for every context. -/
theorem claim2_default_setting_fallback (pr : CompiledProtectedResource)
    (ctx : Obj)
    (h : pr.settings = [] ∨
      ∀ rc ∈ pr.settings, rc.policySetting.checkIfEnabled ctx = false) :
    computeResourceSetting pr ctx = pr.resource.defaultSetting := by
  have hall : ∀ rc ∈ pr.settings, rc.policySetting.checkIfEnabled ctx = false := by
    rcases h with h | h
    · rw [h]
      intro rc hrc
      cases hrc
    · exact h
  have he : enabledSettings pr ctx = [] := by
    unfold enabledSettings
    have : pr.settings.filter (fun rc => rc.policySetting.checkIfEnabled ctx) = [] := by
      rw [List.filter_eq_nil_iff]
      intro rc hrc
      simp [hall rc hrc]
    rw [this]
    rfl
  rw [computeResourceSetting_eq_minFold, he]
  rfl

/-- Witness for C2 at a concrete resource with a single disabled entry. -/
theorem claim2_witness :
    computeResourceSetting exPRDisabled exCtx =
      exPRDisabled.resource.defaultSetting :=
  claim2_default_setting_fallback exPRDisabled exCtx (Or.inr (by decide))

/-- C3: a policy setting without a condition compiles to an always-true
closure, so the entry is always enabled; and an entry whose compiled
condition returns false for the given context contributes nothing to
resolution — removing it from the contributed list leaves the result of
`computeResourceSetting` unchanged, so it is excluded from candidate
selection for that call. -/
theorem claim3_condition_gating :
    (∀ (getF : String → Except String CondFactory) (ps : PolicySettingCfg),
      ps.condition = "" →
      ∃ chk, getPolicyConditionImplementation getF ps = .ok chk ∧
        ∀ ctx, chk ctx = true)
    ∧ (∀ (pr : CompiledProtectedResource)
        (l1 l2 : List CompiledResourceConfig)
        (rc : CompiledResourceConfig) (ctx : Obj),
        pr.settings = l1 ++ rc :: l2 →
        rc.policySetting.checkIfEnabled ctx = false →
        computeResourceSetting pr ctx =
          computeResourceSetting { pr with settings := l1 ++ l2 } ctx) := by
  constructor
  · intro getF ps h
    refine ⟨fun _ => true, ?_, fun ctx => rfl⟩
    unfold getPolicyConditionImplementation
    rw [if_pos h]
  · intro pr l1 l2 rc ctx hs hdis
    have hstep : ∀ acc, resolveStep ctx acc rc = acc :=
      fun acc => resolveStep_disabled ctx acc rc hdis
    unfold computeResourceSetting
    simp only [hs, List.foldl_append, List.foldl_cons, hstep]

/-- Witness for C3: a conditionless policy setting compiles to an enabled
closure, and dropping a concrete disabled entry does not change resolution. -/
theorem claim3_witness :
    (∃ chk, getPolicyConditionImplementation (fun n => .error n)
        { setting := "on" } = .ok chk ∧ ∀ ctx, chk ctx = true)
    ∧ computeResourceSetting exPRMixed exCtx =
        computeResourceSetting
          { exPRMixed with settings := [exEntryShow, exEntryHide] ++ [] } exCtx :=
  ⟨claim3_condition_gating.1 (fun n => .error n) { setting := "on" } rfl,
    claim3_condition_gating.2 exPRMixed [exEntryShow, exEntryHide] []
      exEntryDisabled exCtx rfl rfl⟩

/-! Part: User policy compilation (user-policy.model.js)

The map built by `buildProtectedResources` is a JS object keyed by resource
name; it is modelled as an ordered association list with JS object key
semantics (assignment to an existing key keeps its position). -/

/-- A policy as delivered to `UserPolicy` by `generateRolePolicies`: keeps
only the name and the selected settings. -/
structure UserPolicyEntry where
  name : String
  settings : List PolicySettingCfg
deriving DecidableEq

/-- Model of `protectedResources[name]` read. -/
def assocLookup (m : List (String × CompiledProtectedResource)) (k : String) :
    Option CompiledProtectedResource :=
  (m.find? (fun kv => kv.1 = k)).map (fun kv => kv.2)

/-- Replacement of the value stored under an existing key. -/
def assocReplace (m : List (String × CompiledProtectedResource)) (k : String)
    (v : CompiledProtectedResource) : List (String × CompiledProtectedResource) :=
  m.map (fun kv => if kv.1 = k then (k, v) else kv)

/-- Model of `resourceMap[name] = value`: overwrite in place or append. -/
def assocUpsert (m : List (String × CompiledProtectedResource)) (k : String)
    (v : CompiledProtectedResource) : List (String × CompiledProtectedResource) :=
  if (m.find? (fun kv => kv.1 = k)).isSome then assocReplace m k v
  else m ++ [(k, v)]

/-- The server `getResourceTypeFactory` wrapped by
`getResourceImplementation`: `\x7btarget: resourceType.name, apply:
resourceType.apply\x7d`. Reading `.name` of an unresolved type is a JS
TypeError, rethrown with the added context of the source `catch`. -/
def getResourceImplementation (resourceType : Option ResourceTypeCfg) :
    Except String (String × Option (Obj → Obj → Val)) :=
  match resourceType with
  | some t => .ok (t.name, t.apply)
  | none =>
    .error ("TypeError: cannot read name of undefined" ++
      " - Unknown policy implementation for resource type [undefined]")

/-- Model of `buildProtectedResourceObject`: pair the compiled resource with its
implementation; the contributed-settings list starts empty. -/
def buildProtectedResourceObject (resource : CompiledResource) :
    Except String CompiledProtectedResource :=
  match getResourceImplementation resource.type with
  | .error e => .error e
  | .ok impl =>
    .ok { resource := resource, settings := [], target := impl.1, apply := impl.2 }

/-- The `dictionary.forEach` body of `buildProtectedResources`, folded over
the dictionary: resolve the type object, build the default setting object,
and store the protected resource object under its name. -/
def buildProtectedResourcesAux (resourceTypes : List ResourceTypeCfg)
    (m : List (String × CompiledProtectedResource)) :
    List ProtectedResourceCfg →
      Except String (List (String × CompiledProtectedResource))
  | [] => .ok m
  | resourceData :: rest =>
    let typeObj := resourceTypes.find? (fun t => t.name = resourceData.type)
    let resource0 : CompiledResource :=
      { name := resourceData.name, type := typeObj,
        locator := resourceData.locator, defaultSetting := [],
        params := resourceData.params }
    match buildResourceSettingObject resource0 resourceData.defaultSetting
        resourceData.params with
    | .error e => .error e
    | .ok ds =>
      let resource := { resource0 with defaultSetting := ds }
      match buildProtectedResourceObject resource with
      | .error e => .error e
      | .ok prObj =>
        buildProtectedResourcesAux resourceTypes
          (assocUpsert m resourceData.name prObj) rest

/-- Model of `buildProtectedResources(dictionary, resourceTypes)`. -/
def buildProtectedResources (dictionary : List ProtectedResourceCfg)
    (resourceTypes : List ResourceTypeCfg) :
    Except String (List (String × CompiledProtectedResource)) :=
  buildProtectedResourcesAux resourceTypes [] dictionary

/-- Model of `addPolicyResourceSettingToProtectedResource`: reject grants to unknown
resources, build the setting object from the grant's setting value and
params, and push the contributed entry onto the protected resource. -/
def addPolicyResourceSettingToProtectedResource
    (policyResourceConfig : PolicyGrantCfg)
    (protectedResource : Option CompiledProtectedResource)
    (policySetting : CompiledPolicySetting) :
    Except String CompiledProtectedResource :=
  match protectedResource with
  | none =>
    .error ("Resource [" ++ policyResourceConfig.resource ++
      "] does not exist in dictionary")
  | some pr =>
    match buildResourceSettingObject pr.resource policyResourceConfig.setting
        policyResourceConfig.params with
    | .error e => .error e
    | .ok setting =>
      .ok { pr with settings := pr.settings ++
        [{ resource := pr.resource, setting := setting,
           params := policyResourceConfig.params,
           policySetting := policySetting }] }

/-- The `policySetting.protectedResources.forEach` loop: each failure is
rethrown with the policy-setting context appended. -/
def applyGrants (policySetting : CompiledPolicySetting)
    (m : List (String × CompiledProtectedResource)) :
    List PolicyGrantCfg →
      Except String (List (String × CompiledProtectedResource))
  | [] => .ok m
  | g :: rest =>
    match addPolicyResourceSettingToProtectedResource g
        (assocLookup m g.resource) policySetting with
    | .error e =>
      .error (e ++ " - Issue in with policy setting [" ++
        policySetting.setting ++ "]")
    | .ok pr2 => applyGrants policySetting (assocReplace m g.resource pr2) rest

/-- The `policy.settings.forEach` loop of `addProtectedResourcePreferences`.
A grant list left absent would be a JS TypeError here; the load-time
validator always normalizes it to `[]`, modelled by `getD []`. -/
def applyPolicySettings (getPolicyConditionFactory : String → Except String CondFactory)
    (policyName : String) (m : List (String × CompiledProtectedResource)) :
    List PolicySettingCfg →
      Except String (List (String × CompiledProtectedResource))
  | [] => .ok m
  | psCfg :: rest =>
    match getPolicyConditionImplementation getPolicyConditionFactory psCfg with
    | .error e => .error e
    | .ok chk =>
      let policySetting : CompiledPolicySetting :=
        { setting := psCfg.setting, condition := psCfg.condition,
          params := psCfg.params, checkIfEnabled := chk,
          policyName := policyName }
      match applyGrants policySetting m (psCfg.protectedResources.getD []) with
      | .error e => .error e
      | .ok m2 => applyPolicySettings getPolicyConditionFactory policyName m2 rest

/-- Model of `addProtectedResourcePreferences(policies, protectedResources)`. -/
def addProtectedResourcePreferences
    (getPolicyConditionFactory : String → Except String CondFactory)
    (m : List (String × CompiledProtectedResource)) :
    List UserPolicyEntry →
      Except String (List (String × CompiledProtectedResource))
  | [] => .ok m
  | p :: rest =>
    match applyPolicySettings getPolicyConditionFactory p.name m p.settings with
    | .error e => .error e
    | .ok m2 => addProtectedResourcePreferences getPolicyConditionFactory m2 rest

/-- The security data consumed by `UserPolicy` (the output of
`formatUserSecurityData`). The constant `id`, the wall-clock `revision` and
the empty `timestamp` are metadata never read by the engine and are not
modelled. -/
structure FormattedSecurityData where
  userId : String
  display : String
  policies : Option (List UserPolicyEntry)
  dictionary : Option (List ProtectedResourceCfg)
  resourceTypes : Option (List ResourceTypeCfg)

/-- Model of `compileSecurityData`: build the protected-resource map from the
dictionary, project the policy grants onto it, and return the map's values
in insertion order. -/
def compileSecurityData (securityData : FormattedSecurityData)
    (getPolicyConditionFactory : String → Except String CondFactory) :
    Except String (List CompiledProtectedResource) :=
  match buildProtectedResources (securityData.dictionary.getD [])
      (securityData.resourceTypes.getD []) with
  | .error e => .error e
  | .ok m =>
    match addProtectedResourcePreferences getPolicyConditionFactory m
        (securityData.policies.getD []) with
    | .error e => .error e
    | .ok m2 => .ok (m2.map (fun kv => kv.2))

/-- Model of `getProtectedResourceByLocator`. -/
def getProtectedResourceByLocator (l : List CompiledProtectedResource)
    (locator : String) : Except String CompiledProtectedResource :=
  match l.find? (fun r => r.resource.locator = locator) with
  | none => .error ("Protected resource [" ++ locator ++ "] undefined")
  | some pr => .ok pr

/-- C7: the setting object pushed onto a protected resource's contributed
list is the grant's caller params with the resource type's static setting
definition assigned over them, so for every property — in particular
`value` and `priority` — the static setting definition wins over an
identically-named caller param, and caller params only extend it. -/
theorem claim7_static_setting_overrides_params
    (grant : PolicyGrantCfg) (pr : CompiledProtectedResource)
    (ps : CompiledPolicySetting) (t : ResourceTypeCfg) (so : Obj)
    (htype : pr.resource.type = some t)
    (hfind : t.settings.find?
      (fun s => objGet s "value" = some (.str grant.setting)) = some so)
    (hnd : (so.map Prod.fst).Nodup) :
    ∃ pr2, addPolicyResourceSettingToProtectedResource grant (some pr) ps = .ok pr2 ∧
      ∃ entry, pr2.settings = pr.settings ++ [entry] ∧
        entry.setting = jsAssign grant.params so ∧
        ∀ k, objGet entry.setting k =
          match objGet so k with
          | some v => some v
          | none => objGet grant.params k := by
  unfold addPolicyResourceSettingToProtectedResource buildResourceSettingObject
  simp only [htype, hfind]
  refine ⟨_, rfl, _, rfl, rfl, ?_⟩
  intro k
  exact objGet_jsAssign grant.params so k hnd

def exGrantHide : PolicyGrantCfg :=
  { resource := "AccountMenu", setting := "hide",
    params := [("priority", .num 99), ("extra", .str "x")] }

/-- Witness for C7: a grant whose params try to override `priority` still
gets the static priority 0 of the `hide` setting, while the extra param
shows through. -/
theorem claim7_witness :
    ∃ pr2, addPolicyResourceSettingToProtectedResource exGrantHide (some exPR)
        exPolicySettingOn = .ok pr2 ∧
      ∃ entry, pr2.settings = exPR.settings ++ [entry] ∧
        entry.setting = jsAssign exGrantHide.params exSettingHide ∧
        ∀ k, objGet entry.setting k =
          match objGet exSettingHide k with
          | some v => some v
          | none => objGet exGrantHide.params k :=
  claim7_static_setting_overrides_params exGrantHide exPR exPolicySettingOn
    exType exSettingHide rfl rfl (by decide)

/-! Part: Load-time validation (security-definition.service.js)

`JSON.stringify` of a configuration object is modelled by a canonical
serializer over the record fields in declaration order (JS key order is the
insertion order of the user-supplied object and is not recoverable);
functions are omitted, as `JSON.stringify` omits them. The serialized text
only ever feeds error messages. -/

def stringifyVal : Val → String
  | .str s => "\"" ++ s ++ "\""
  | .num n => toString n
  | .bool b => if b then "true" else "false"

def stringifyObj (o : Obj) : String :=
  "\x7b" ++
    String.intercalate ","
      (o.map (fun kv => "\"" ++ kv.1 ++ "\":" ++ stringifyVal kv.2)) ++ "\x7d"

def stringifyStrList (l : List String) : String :=
  "[" ++ String.intercalate "," (l.map (fun s => "\"" ++ s ++ "\"")) ++ "]"

def stringifyResourceTypeCfg (rt : ResourceTypeCfg) : String :=
  "\x7b\"name\":\"" ++ rt.name ++ "\"" ++
    (match rt.env with
     | none => ""
     | some e => ",\"env\":" ++ stringifyStrList e) ++
    ",\"settings\":[" ++
    String.intercalate "," (rt.settings.map stringifyObj) ++ "]\x7d"

def stringifyProtectedResourceCfg (r : ProtectedResourceCfg) : String :=
  "\x7b\"name\":\"" ++ r.name ++ "\",\"type\":\"" ++ r.type ++
    "\",\"locator\":\"" ++ r.locator ++ "\",\"defaultSetting\":\"" ++
    r.defaultSetting ++ "\",\"params\":" ++ stringifyObj r.params ++ "\x7d"

def stringifyGrantCfg (gr : PolicyGrantCfg) : String :=
  "\x7b\"resource\":\"" ++ gr.resource ++ "\",\"setting\":\"" ++ gr.setting ++
    "\",\"params\":" ++ stringifyObj gr.params ++ "\x7d"

def stringifyPolicySettingCfg (ps : PolicySettingCfg) : String :=
  "\x7b\"setting\":\"" ++ ps.setting ++ "\",\"notes\":\"" ++ ps.notes ++
    "\",\"condition\":\"" ++ ps.condition ++ "\",\"params\":" ++
    stringifyObj ps.params ++
    (match ps.protectedResources with
     | none => ""
     | some gs =>
       ",\"protectedResources\":[" ++
         String.intercalate "," (gs.map stringifyGrantCfg) ++ "]") ++ "\x7d"

/-- JS string coercion of a possibly-absent property value, as used when an
array of setting values is joined into an error message. -/
def valOptToJsString : Option Val → String
  | none => ""
  | some (.str s) => s
  | some (.num n) => toString n
  | some (.bool b) => if b then "true" else "false"

/-- Model of `_.map(resourceType.settings, 'value')` interpolated into a template
string (JS `Array.toString` joins with commas). -/
def settingValuesJoined (settings : List Obj) : String :=
  String.intercalate "," (settings.map (fun s => valOptToJsString (objGet s "value")))

/-- The module-level registries of security-definition.service.js. The
`find`/`findSetting`/`findProtectedResourceByName`/`find` helpers attached
to the arrays are closures over these variables and read them at call
time. -/
structure ModuleState where
  dictionary : List ProtectedResourceCfg := []
  resourceTypes : List ResourceTypeCfg := []
  policies : List PolicyCfg := []
  conditionFactories : List CondFactory := []

/-- Model of `resourceTypes.find(type)`: throws on an unknown type name. -/
def findResourceType (st : ModuleState) (type : String) :
    Except String ResourceTypeCfg :=
  match st.resourceTypes.find? (fun rt => rt.name = type) with
  | none => .error ("Undefined resource type [" ++ type ++ "].")
  | some definition => .ok definition

/-- Model of `resourceTypes.findSetting(typeName, setting)`: `_.find` over the
resolved type's settings by `value`; the inner `find` throw propagates. -/
def findSetting (st : ModuleState) (typeName setting : String) :
    Except String (Option Obj) :=
  match findResourceType st typeName with
  | .error e => .error e
  | .ok rt =>
    .ok (rt.settings.find? (fun s => objGet s "value" = some (.str setting)))

/-- Model of `dictionary.findProtectedResourceByName(name)`: plain `_.find`, no
throw. -/
def findProtectedResourceByName (st : ModuleState) (name : String) :
    Option ProtectedResourceCfg :=
  st.dictionary.find? (fun r => r.name = name)

/-- Model of `conditionFactories.find(factoryName)`. -/
def findConditionFactory (st : ModuleState) (factoryName : String) :
    Except String CondFactory :=
  match st.conditionFactories.find? (fun f => f.factory = factoryName) with
  | none =>
    .error ("Undefined condition factory [" ++ factoryName ++
      "]. Check your security config.")
  | some factory => .ok factory

/-- Model of `addResourceType`: name present, not duplicated, env present, and an
apply function whenever the type is declared for the server. -/
def addResourceType (st : ModuleState) (resourceType : ResourceTypeCfg) :
    Except String (List ResourceTypeCfg) :=
  if resourceType.name = "" then .error "name property is required"
  else if (st.resourceTypes.find? (fun x => x.name = resourceType.name)).isSome then
    .error "Duplicated resource type"
  else
    match resourceType.env with
    | none => .error "env property is required"
    | some env =>
      if env.contains "server" && resourceType.apply.isNone then
        .error "Apply function is required in server protected resource type"
      else .ok (st.resourceTypes ++ [resourceType])

/-- The `_.forEach` of `initializeResourceTypes`; `idx` is the array index
that `_.forEach` hands the callback and that the catch interpolates as
`typeName`. On failure the registry keeps the entries added so far. -/
def initializeResourceTypesAux (st : ModuleState) (idx : Nat) :
    List ResourceTypeCfg → ModuleState × Option String
  | [] => (st, none)
  | rt :: rest =>
    match addResourceType st rt with
    | .error e =>
      (st, some (e ++ " - invalid resource type [" ++ toString idx ++ "]: " ++
        stringifyResourceTypeCfg rt))
    | .ok l => initializeResourceTypesAux { st with resourceTypes := l } (idx + 1) rest

/-- Model of `initializeResourceTypes`: stores the condition factories, resets the
type registry, then validates and adds each type. -/
def initializeResourceTypes (st : ModuleState)
    (resourceTypeList : List ResourceTypeCfg)
    (conditionFactoryList : List CondFactory) : ModuleState × Option String :=
  initializeResourceTypesAux
    { st with conditionFactories := conditionFactoryList, resourceTypes := [] }
    0 resourceTypeList

/-- Model of `addResourceToDictionary`: required fields, resolvable type, legal
default setting, unique name. -/
def addResourceToDictionary (st : ModuleState)
    (protectedResource : ProtectedResourceCfg) :
    Except String (List ProtectedResourceCfg) :=
  if protectedResource.name = "" then .error "Name is required"
  else if protectedResource.type = "" then .error "type is required"
  else if protectedResource.locator = "" then .error "locator is required"
  else if protectedResource.defaultSetting = "" then .error "defaultSetting is required"
  else
    match findResourceType st protectedResource.type with
    | .error e => .error e
    | .ok resourceType =>
      match findSetting st resourceType.name protectedResource.defaultSetting with
      | .error e => .error e
      | .ok none =>
        .error ("defaultSetting [" ++ protectedResource.defaultSetting ++
          "] is unknown to type [" ++ protectedResource.type ++ "]")
      | .ok (some _) =>
        if (st.dictionary.find? (fun x => x.name = protectedResource.name)).isSome then
          .error ("Duplicated protected resource [" ++ protectedResource.name ++ "]")
        else .ok (st.dictionary ++ [protectedResource])

/-- The `forEach` of `initializeDictionary`. -/
def initializeDictionaryAux (st : ModuleState) :
    List ProtectedResourceCfg → ModuleState × Option String
  | [] => (st, none)
  | pr :: rest =>
    match addResourceToDictionary st pr with
    | .error e =>
      (st, some (e ++ " - invalid protected resource in dictionary: " ++
        stringifyProtectedResourceCfg pr))
    | .ok l => initializeDictionaryAux { st with dictionary := l } rest

/-- Model of `initializeDictionary`: resets the dictionary then validates and adds
each protected resource. -/
def initializeDictionary (st : ModuleState)
    (protectedResources : List ProtectedResourceCfg) : ModuleState × Option String :=
  initializeDictionaryAux { st with dictionary := [] } protectedResources

/-- Model of `checkPolicyProtectedResource`: the grant's resource must be in the
dictionary and its setting legal for the resource's type. -/
def checkPolicyProtectedResource (st : ModuleState) (config : PolicyGrantCfg) :
    Except String Unit :=
  match findProtectedResourceByName st config.resource with
  | none =>
    .error ("Resource [" ++ config.resource ++ "] is not defined in the dictionary")
  | some protectedResource =>
    if config.setting = "" then .error "Setting is required"
    else
      match findResourceType st protectedResource.type with
      | .error e => .error e
      | .ok resourceType =>
        match findSetting st protectedResource.type config.setting with
        | .error e => .error e
        | .ok (some _) => .ok ()
        | .ok none =>
          .error ("Resource [" ++ config.resource ++
            "] uses an undefined setting [" ++ config.setting ++
            "]. Allowed values by its type [" ++ resourceType.name ++
            "] are [" ++ settingValuesJoined resourceType.settings ++ "]")

/-- The grant `forEach` of `checkPolicySetting`, appending the failing
grant's resource name to the message. -/
def checkGrants (st : ModuleState) : List PolicyGrantCfg → Option String
  | [] => none
  | g :: rest =>
    match checkPolicyProtectedResource st g with
    | .error e => some (e ++ " - invalid protected resource [" ++ g.resource ++ "]")
    | .ok _ => checkGrants st rest

/-- Model of `checkPolicySetting`: requires a setting label; an absent grant list is
normalized to `[]` (the source mutates the config in place), a present one
is validated grant by grant. -/
def checkPolicySetting (st : ModuleState) (config : PolicySettingCfg) :
    Except String PolicySettingCfg :=
  if config.setting = "" then .error "setting is required in policy settings"
  else
    match config.protectedResources with
    | none => .ok { config with protectedResources := some [] }
    | some grants =>
      match checkGrants st grants with
      | some e => .error e
      | none => .ok config

/-- The setting `forEach` of `addPolicy`, appending the serialized failing
setting to the message. -/
def checkPolicySettings (st : ModuleState) :
    List PolicySettingCfg → Except String (List PolicySettingCfg)
  | [] => .ok []
  | c :: rest =>
    match checkPolicySetting st c with
    | .error e =>
      .error (e ++ " - invalid policy setting: " ++ stringifyPolicySettingCfg c)
    | .ok c2 =>
      match checkPolicySettings st rest with
      | .error e => .error e
      | .ok rest2 => .ok (c2 :: rest2)

/-- Model of `addPolicy`: name and settings present, name unique, settings valid, and
a declared policy default setting must match one of the setting labels. -/
def addPolicy (st : ModuleState) (policy : PolicyCfg) :
    Except String (List PolicyCfg) :=
  if policy.name = "" then .error "Name is required"
  else
    match policy.settings with
    | none => .error "Settings is required"
    | some settingList =>
      if (st.policies.find? (fun p => p.name = policy.name)).isSome then
        .error ("Duplicated policy [" ++ policy.name ++ "]")
      else
        match checkPolicySettings st settingList with
        | .error e => .error e
        | .ok normalized =>
          if policy.defaultSetting = "" then
            .ok (st.policies ++ [{ policy with settings := some normalized }])
          else if (settingList.find? (fun s => s.setting = policy.defaultSetting)).isSome then
            .ok (st.policies ++ [{ policy with settings := some normalized }])
          else
            .error ("defaultSetting [" ++ policy.defaultSetting ++ "] is incorrect")

/-- The `forEach` of `initializePolicies`, appending the failing policy's
name. -/
def initializePoliciesAux (st : ModuleState) :
    List PolicyCfg → ModuleState × Option String
  | [] => (st, none)
  | p :: rest =>
    match addPolicy st p with
    | .error e => (st, some (e ++ " - invalid policy [" ++ p.name ++ "]"))
    | .ok l => initializePoliciesAux { st with policies := l } rest

/-- Model of `initializePolicies`: resets the policy registry then validates and adds
each policy. -/
def initializePolicies (st : ModuleState) (policyList : List PolicyCfg) :
    ModuleState × Option String :=
  initializePoliciesAux { st with policies := [] } policyList

/-- The object returned by a successful `load`, holding the arrays current
at that moment. -/
structure Snapshot where
  conditionFactories : List CondFactory
  dictionary : List ProtectedResourceCfg
  resourceTypes : List ResourceTypeCfg
  policies : List PolicyCfg

/-- The `try` body of `load`: the three initializers in order, with the
detailed message of the first failure (this is what `logger.error(e.message)`
logs). -/
def initAll (st : ModuleState) (security : SecurityConfig) :
    ModuleState × Option String :=
  match initializeResourceTypes st security.resourceTypes security.conditionFactories with
  | (st1, some e) => (st1, some e)
  | (st1, none) =>
    match initializeDictionary st1 security.dictionary with
    | (st2, some e) => (st2, some e)
    | (st2, none) => initializePolicies st2 security.policies

/-- Model of `load`: returns the snapshot on success; on any validation failure the
detailed error is logged and a single generic error is thrown instead. -/
def load (st : ModuleState) (security : SecurityConfig) :
    ModuleState × Except String Snapshot :=
  match initAll st security with
  | (st2, some _) => (st2, .error "Invalid Application Security Configuration")
  | (st2, none) =>
    (st2, .ok { conditionFactories := st2.conditionFactories,
                dictionary := st2.dictionary,
                resourceTypes := st2.resourceTypes,
                policies := st2.policies })

/-- C4: whenever any load-time validation rule fails (`initAll` produces a
detailed message), `load` throws, and every error `load` ever throws has
exactly the message `Invalid Application Security Configuration`; the
detailed underlying cause is only the logged value of `initAll`, never the
thrown one. -/
theorem claim4_generic_error_on_load_failure (st : ModuleState)
    (security : SecurityConfig) :
    ((initAll st security).2.isSome →
      (load st security).2 = .error "Invalid Application Security Configuration")
    ∧ (∀ m, (load st security).2 = .error m →
        m = "Invalid Application Security Configuration") := by
  constructor
  · intro h
    rcases hi : initAll st security with ⟨st2, r⟩
    cases r with
    | none =>
      rw [hi] at h
      simp at h
    | some e =>
      simp [load, hi]
  · intro m hm
    rcases hi : initAll st security with ⟨st2, r⟩
    cases r with
    | none => simp [load, hi] at hm
    | some e =>
      simp [load, hi] at hm
      exact hm.symm

/-- A configuration whose first resource type misses its name. -/
def exBadConfig : SecurityConfig := { resourceTypes := [{ name := "" }] }

/-- Witness for C4 on a concrete invalid configuration. -/
theorem claim4_witness :
    (load {} exBadConfig).2 = .error "Invalid Application Security Configuration" :=
  (claim4_generic_error_on_load_failure {} exBadConfig).1 (by decide)

/-- C6: when resource types and dictionary validate but a policy's first
setting's first grant references a resource name absent from the dictionary,
`load` fails with the generic configuration error while the detailed logged
cause starts with `Resource [<name>] is not defined in the dictionary`,
naming the missing resource. -/
theorem claim6_ghost_resource_detailed_cause
    (st st1 st2 : ModuleState) (security : SecurityConfig)
    (g pname psname nts cond d pds gs : String) (q gp : Obj)
    (more : List PolicyGrantCfg)
    (h1 : initializeResourceTypes st security.resourceTypes
      security.conditionFactories = (st1, none))
    (h2 : initializeDictionary st1 security.dictionary = (st2, none))
    (hg : findProtectedResourceByName st2 g = none)
    (hpn : pname ≠ "") (hps : psname ≠ "")
    (hpol : security.policies =
      [{ name := pname, description := d, defaultSetting := pds,
         settings := some
           [{ setting := psname, notes := nts, condition := cond, params := q,
              protectedResources := some
                ({ resource := g, setting := gs, params := gp } :: more) }] }]) :
    (load st security).2 = .error "Invalid Application Security Configuration" ∧
    ∃ rest, (initAll st security).2 =
      some ("Resource [" ++ g ++ "] is not defined in the dictionary" ++ rest) := by
  have hinit : initAll st security = initializePolicies st2 security.policies := by
    simp only [initAll, h1, h2]
  have hfindp : findProtectedResourceByName { st2 with policies := [] } g = none := hg
  have hcomp : initializePolicies st2 security.policies =
      ({ st2 with policies := [] },
        some ("Resource [" ++ g ++ "] is not defined in the dictionary" ++
          " - invalid protected resource [" ++ g ++ "]" ++
          " - invalid policy setting: " ++
          stringifyPolicySettingCfg
            { setting := psname, notes := nts, condition := cond, params := q,
              protectedResources := some
                 ({ resource := g, setting := gs, params := gp } :: more) } ++
          " - invalid policy [" ++ pname ++ "]")) := by
    rw [hpol]
    simp only [initializePolicies, initializePoliciesAux, addPolicy,
      checkPolicySettings, checkPolicySetting, checkGrants,
      checkPolicyProtectedResource, hfindp, if_neg hpn, if_neg hps,
      List.find?_nil, Option.isSome_none, Bool.false_eq_true, if_false]
  constructor
  · simp only [load, hinit, hcomp]
  · refine ⟨" - invalid protected resource [" ++ g ++ "]" ++
      " - invalid policy setting: " ++
      stringifyPolicySettingCfg
        { setting := psname, notes := nts, condition := cond, params := q,
          protectedResources := some
            ({ resource := g, setting := gs, params := gp } :: more) } ++
      " - invalid policy [" ++ pname ++ "]", ?_⟩
    rw [hinit, hcomp]
    simp only [String.append_assoc]

/-- Scenario D's dictionary entry. -/
def exDictEntry : ProtectedResourceCfg :=
  { name := "AccountMenu", type := "AppMenuItem", locator := "account.menu",
    defaultSetting := "show", params := [] }

/-- Scenario D's policy, granting a setting to the undeclared resource
`Ghost`. -/
def exGhostPolicy : PolicyCfg :=
  { name := "p1", description := "", defaultSetting := "",
    settings := some
      [{ setting := "access", notes := "", condition := "", params := [],
         protectedResources := some
           [{ resource := "Ghost", setting := "hide", params := [] }] }] }

/-- Scenario D's full configuration. -/
def exConfigD : SecurityConfig :=
  { resourceTypes := [exType], dictionary := [exDictEntry],
    policies := [exGhostPolicy], conditionFactories := [],
    defaultRole := "admin" }

/-- The module state after Scenario D's resource types load. -/
def exSt1 : ModuleState :=
  { dictionary := [], resourceTypes := [exType], policies := [],
    conditionFactories := [] }

/-- The module state after Scenario D's dictionary load. -/
def exSt2 : ModuleState :=
  { dictionary := [exDictEntry], resourceTypes := [exType], policies := [],
    conditionFactories := [] }

/-- Witness for C6 at Scenario D. -/
theorem claim6_witness :
    (load {} exConfigD).2 = .error "Invalid Application Security Configuration" ∧
    ∃ rest, (initAll {} exConfigD).2 =
      some ("Resource [" ++ "Ghost" ++ "] is not defined in the dictionary" ++ rest) :=
  claim6_ghost_resource_detailed_cause {} exSt1 exSt2 exConfigD
    "Ghost" "p1" "access" "" "" "" "" "hide" [] [] []
    rfl rfl rfl (by decide) (by decide) rfl

/-! Part: Security service (security.service.js)

`findRoleByUser` with the default-role fallback is host-supplied data,
modelled as an oracle `User → Except String Role`. Promise-based code is
modelled synchronously: a rejected promise is an `Except.error`. -/

/-- A user; `permissionRoleCode = ""` models an absent role code (JS
falsiness) and `tenantAdmin` the result of `user.isTenantAdmin()`. -/
structure User where
  permissionRoleCode : String := ""
  tenantAdmin : Bool := false
  display : String := ""
  id : String := ""
  tenantId : String := ""
deriving DecidableEq

/-- One selection inside a role policy: a bare setting label, or an object
carrying a value and optional params. -/
inductive RoleSetting where
  | label (value : String)
  | obj (value : String) (params : Option Obj)
deriving DecidableEq

structure RolePolicy where
  name : String
  settings : List RoleSetting
deriving DecidableEq

structure Role where
  description : Option String := none
  policies : List RolePolicy := []
deriving DecidableEq

/-- The value of `generateRolePolicies`: the policy array plus the
`description` property the source sets on it. -/
structure UserPolicies where
  list : List UserPolicyEntry
  description : Option String
deriving DecidableEq

/-- Model of `JSON.stringify` of a role setting selection. -/
def stringifyRoleSetting : RoleSetting → String
  | .label v => "\"" ++ v ++ "\""
  | .obj v params =>
    "\x7b\"value\":\"" ++ v ++ "\"" ++
      (match params with
       | none => ""
       | some p => ",\"params\":" ++ stringifyObj p) ++ "\x7d"

/-- Model of `collectRolePolicySettingDefinitions`: map each role selection to the
policy's matching setting definition (by label, or by `value` for object
selections), overriding its params when the selection carries params; an
unmatched selection throws. A validated policy always has a settings list
(`getD []` models the property read). -/
def collectRolePolicySettingDefinitions (policyDefinition : PolicyCfg) :
    List RoleSetting → Except String (List PolicySettingCfg)
  | [] => .ok []
  | setting :: rest =>
    let defs : List PolicySettingCfg := policyDefinition.settings.getD []
    let found : Option PolicySettingCfg :=
      match setting with
      | .label v => defs.find? (fun s => s.setting = v)
      | .obj v _ => defs.find? (fun s => s.setting = v)
    match found with
    | none =>
      .error ("Setting [" ++ stringifyRoleSetting setting ++
        "] does NOT exist for policy [" ++ policyDefinition.name ++ "]")
    | some policySettingConfiguration =>
      let chosen :=
        match setting with
        | .label _ => policySettingConfiguration
        | .obj _ none => policySettingConfiguration
        | .obj _ (some p) => { policySettingConfiguration with params := p }
      match collectRolePolicySettingDefinitions policyDefinition rest with
      | .error e => .error e
      | .ok rest2 => .ok (chosen :: rest2)

/-- The selection step of `generateRolePolicies` for one policy definition:
the role's selections when present and non-empty, else the policy's own
default setting when declared, else nothing. -/
def generateRolePoliciesSelect (userRole : Role) (policyDefinition : PolicyCfg) :
    Except String (Option (List PolicySettingCfg)) :=
  match userRole.policies.find? (fun rp => rp.name = policyDefinition.name) with
  | some rolePolicy =>
    if rolePolicy.settings.isEmpty then
      if policyDefinition.defaultSetting = "" then .ok none
      else
        (collectRolePolicySettingDefinitions policyDefinition
          [.label policyDefinition.defaultSetting]).map some
    else
      (collectRolePolicySettingDefinitions policyDefinition
        rolePolicy.settings).map some
  | none =>
    if policyDefinition.defaultSetting = "" then .ok none
    else
      (collectRolePolicySettingDefinitions policyDefinition
        [.label policyDefinition.defaultSetting]).map some

/-- The `forEach` of `generateRolePolicies`: push a `\x7bname, settings\x7d`
entry whenever a non-empty selection was produced. -/
def generateRolePoliciesAux (userRole : Role) :
    List PolicyCfg → Except String (List UserPolicyEntry)
  | [] => .ok []
  | policyDefinition :: rest =>
    match generateRolePoliciesSelect userRole policyDefinition with
    | .error e => .error e
    | .ok settingsOpt =>
      match generateRolePoliciesAux userRole rest with
      | .error e => .error e
      | .ok restEntries =>
        match settingsOpt with
        | none => .ok restEntries
        | some settings =>
          if settings.isEmpty then .ok restEntries
          else .ok ({ name := policyDefinition.name, settings := settings } :: restEntries)

/-- Model of `generateRolePolicies(userRole)`: walk the loaded policy definitions in
order. -/
def generateRolePolicies (st : ModuleState) (userRole : Role) :
    Except String UserPolicies :=
  match generateRolePoliciesAux userRole st.policies with
  | .error e => .error e
  | .ok entries => .ok { list := entries, description := userRole.description }

/-- Model of `findUserPolicyData`: a user without a role code, or a tenant admin,
gets an empty policy list without any role lookup; otherwise the role is
resolved and compiled, any failure gaining the
`Invalid security policy for user` context. -/
def findUserPolicyData (st : ModuleState) (findRole : User → Except String Role)
    (user : User) : Except String UserPolicies :=
  if user.permissionRoleCode = "" ∨ user.tenantAdmin = true then
    .ok { list := [], description := none }
  else
    match findRole user with
    | .error e => .error (e ++ "- Invalid security policy for user " ++ user.display)
    | .ok role =>
      match generateRolePolicies st role with
      | .error e => .error (e ++ "- Invalid security policy for user " ++ user.display)
      | .ok ups => .ok ups

/-- The per-environment security data produced by
`generateUserSecurityDataByEnvironment`; the admin form carries no
policies, dictionary or resource types. -/
structure UserSecurityData where
  env : String
  user : User
  description : Option String
  policies : Option (List UserPolicyEntry)
  dictionary : Option (List ProtectedResourceCfg)
  resourceTypes : Option (List ResourceTypeCfg)

/-- Model of `type.env.indexOf(env) !== -1`; a type without `env` cannot occur in a
validated snapshot (the loader requires the property). -/
def envHas (rt : ResourceTypeCfg) (env : String) : Bool :=
  (rt.env.getD []).contains env

/-- Model of `_.filter` with a predicate that may throw: evaluated left to right,
the first exception aborts the whole filter. -/
def exceptFilter {α : Type} (p : α → Except String Bool) :
    List α → Except String (List α)
  | [] => .ok []
  | a :: rest =>
    match p a with
    | .error e => .error e
    | .ok true =>
      match exceptFilter p rest with
      | .error e => .error e
      | .ok l => .ok (a :: l)
    | .ok false => exceptFilter p rest

/-- The grant predicate of `filterPolicyContentByEnvironment`: resolve the
grant's resource in the dictionary (reading `.type` of a missing resource
is a JS TypeError), then its type, and test the environment tag. -/
def grantEnvPred (st : ModuleState) (environment : String)
    (protectedResource : PolicyGrantCfg) : Except String Bool :=
  match findProtectedResourceByName st protectedResource.resource with
  | none => .error "TypeError: cannot read type of undefined resource"
  | some resource =>
    match findResourceType st resource.type with
    | .error e => .error e
    | .ok rt => .ok (envHas rt environment)

/-- The dictionary predicate of `generateUserSecurityDataByEnvironment`. -/
def dictEnvPred (st : ModuleState) (env : String)
    (resource : ProtectedResourceCfg) : Except String Bool :=
  match findResourceType st resource.type with
  | .error e => .error e
  | .ok rt => .ok (envHas rt env)

/-- The inner loop of `filterPolicyContentByEnvironment`: keep each policy
setting whose grant list filters to something non-empty, with the filtered
grants substituted. -/
def filterPolicySettingsByEnvironment (st : ModuleState) (environment : String) :
    List PolicySettingCfg → Except String (List PolicySettingCfg)
  | [] => .ok []
  | policySetting :: rest =>
    match exceptFilter (grantEnvPred st environment)
        (policySetting.protectedResources.getD []) with
    | .error e => .error e
    | .ok filteredProtectedResources =>
      match filterPolicySettingsByEnvironment st environment rest with
      | .error e => .error e
      | .ok rest2 =>
        if filteredProtectedResources.isEmpty then .ok rest2
        else
          .ok ({ policySetting with
            protectedResources := some filteredProtectedResources } :: rest2)

/-- Model of `filterPolicyContentByEnvironment`: keep each policy whose settings
filter to something non-empty. -/
def filterPolicyContentByEnvironment (st : ModuleState)
    (userPolicies : List UserPolicyEntry) (environment : String) :
    Except String (List UserPolicyEntry) :=
  match userPolicies with
  | [] => .ok []
  | policy :: rest =>
    match filterPolicySettingsByEnvironment st environment policy.settings with
    | .error e => .error e
    | .ok filteredPolicySettings =>
      match filterPolicyContentByEnvironment st rest environment with
      | .error e => .error e
      | .ok rest2 =>
        if filteredPolicySettings.isEmpty then .ok rest2
        else .ok ({ policy with settings := filteredPolicySettings } :: rest2)

/-- Model of `generateUserSecurityDataByEnvironment`: admins and role-less users get
the full-access form; everyone else gets the policies, dictionary and
resource types filtered to the environment. The lookups go through the
module state, as the snapshot's `find` helpers do. -/
def generateUserSecurityDataByEnvironment (st : ModuleState) (snap : Snapshot)
    (user : User) (userPolicies : UserPolicies) (env : String) :
    Except String UserSecurityData :=
  if user.permissionRoleCode = "" ∨ user.tenantAdmin = true then
    .ok { env := env, user := user, description := some "Admin - Full access",
          policies := none, dictionary := none, resourceTypes := none }
  else
    match filterPolicyContentByEnvironment st userPolicies.list env with
    | .error e => .error e
    | .ok filteredPolicies =>
      match exceptFilter (dictEnvPred st env) snap.dictionary with
      | .error e => .error e
      | .ok filteredDictionary =>
        .ok { env := env, user := user,
              description := userPolicies.description,
              policies := some filteredPolicies,
              dictionary := some filteredDictionary,
              resourceTypes := some (snap.resourceTypes.filter (fun t => envHas t env)) }

/-- Model of `formatUserSecurityData`: repackage for transport; `id`, `revision` and
`timestamp` are constant or wall-clock metadata never read back. -/
def formatUserSecurityData (securityData : UserSecurityData) :
    FormattedSecurityData :=
  { userId := securityData.user.id, display := securityData.user.display,
    policies := securityData.policies,
    dictionary := securityData.dictionary,
    resourceTypes := securityData.resourceTypes }

/-- Model of `collectServerUserPolicy`: user policy data, filtered to the server
environment, compiled into a `UserPolicy`; the condition factory getter is
the module-state `find` closure. -/
def collectServerUserPolicy (st : ModuleState) (snap : Snapshot)
    (findRole : User → Except String Role) (user : User) :
    Except String (List CompiledProtectedResource) :=
  match findUserPolicyData st findRole user with
  | .error e => .error e
  | .ok userPolicies =>
    match generateUserSecurityDataByEnvironment st snap user userPolicies "server" with
    | .error e => .error e
    | .ok securityData =>
      compileSecurityData (formatUserSecurityData securityData)
        (fun n => findConditionFactory st n)

/-- The `isSetting` closure of the normal `applyResourcePolicy` path. The
compiled protected resource object has no `setting` or `type` property, so
the `settingName === protectedResource.setting` comparison is against
`undefined` and false, and the `findSetting(protectedResource.type, ...)`
guard resolves the type name `undefined`, which no validated type carries,
so the inner `find` throws. -/
def serverIsSetting (_settingName : String) : Except String Bool :=
  .error "Undefined resource type [undefined]."

/-- What `applyResourcePolicy` resolves with: the apply result and the
`isSetting` checker. -/
structure ApplyOutcome where
  result : Val
  isSetting : String → Except String Bool

/-- Model of `applyResourcePolicy(user, locator, contextParams)`: a missing user or
role code resolves immediately with `result: true` and an all-false
`isSetting`; otherwise the server user policy is compiled, the resource
located, its setting computed and applied, and a falsy apply result rejects
with `RESOURCE_DENIED`. -/
def applyResourcePolicy (st : ModuleState) (snap : Snapshot)
    (findRole : User → Except String Role) (user : Option User)
    (protectedResourceLocator : String) (contextParams : Obj) :
    Except String ApplyOutcome :=
  match user with
  | none => .ok { result := .bool true, isSetting := fun _ => .ok false }
  | some u =>
    if u.permissionRoleCode = "" then
      .ok { result := .bool true, isSetting := fun _ => .ok false }
    else
      match collectServerUserPolicy st snap findRole u with
      | .error e => .error e
      | .ok userPolicy =>
        match getProtectedResourceByLocator userPolicy protectedResourceLocator with
        | .error e => .error e
        | .ok protectedResource =>
          let setting := computeResourceSetting protectedResource contextParams
          match protectedResource.apply with
          | none => .error "TypeError: protectedResource.apply is not a function"
          | some applyFn =>
            let valid := applyFn setting contextParams
            if jsTruthy valid then
              .ok { result := valid, isSetting := serverIsSetting }
            else .error "RESOURCE_DENIED"

/-- The security.service module state: the definition-service registries
plus the `systemSecurityData` snapshot reference. -/
structure ServiceState where
  modState : ModuleState := {}
  systemSecurityData : Option Snapshot := none

/-- Model of `load(securityConfiguration)` of security.service.js: requires a
default role, then delegates to the definition loader; only on success is
`systemSecurityData` reassigned. -/
def serviceLoad (s : ServiceState) (securityConfiguration : SecurityConfig) :
    ServiceState × Except String Unit :=
  if securityConfiguration.defaultRole = "" then
    (s, .error "No default role provided to initialize system security")
  else
    match load s.modState securityConfiguration with
    | (st2, .error m) => ({ s with modState := st2 }, .error m)
    | (st2, .ok snap) => ({ modState := st2, systemSecurityData := some snap }, .ok ())

/-- Model of `getSystemSecurityConfiguration`. -/
def getSystemSecurityConfiguration (s : ServiceState) : Except String Snapshot :=
  match s.systemSecurityData with
  | none => .error "System security not initialized"
  | some d => .ok d

/-- C9: with a falsy user or a user without `permissionRoleCode`,
`applyResourcePolicy` resolves successfully with `result` exactly `true`
and an `isSetting` that reports false for every setting name — and it does
so uniformly in the module state, snapshot, role oracle, locator and
context, so no locator resolution, policy or condition evaluation, or
apply invocation takes place. -/
theorem claim9_falsy_user_grants_access (st : ModuleState) (snap : Snapshot)
    (findRole : User → Except String Role) (user : Option User)
    (locator : String) (ctx : Obj)
    (h : user = none ∨ ∃ u, user = some u ∧ u.permissionRoleCode = "") :
    ∃ out, applyResourcePolicy st snap findRole user locator ctx = .ok out ∧
      out.result = .bool true ∧ ∀ s, out.isSetting s = .ok false := by
  rcases h with h | ⟨u, hu, hcode⟩
  · subst h
    exact ⟨_, rfl, rfl, fun _ => rfl⟩
  · subst hu
    refine ⟨{ result := .bool true, isSetting := fun _ => .ok false }, ?_, rfl,
      fun _ => rfl⟩
    simp [applyResourcePolicy, hcode]

/-- An empty snapshot. -/
def exSnapEmpty : Snapshot :=
  { conditionFactories := [], dictionary := [], resourceTypes := [],
    policies := [] }

/-- Witness for C9 with a missing user. -/
theorem claim9_witness :
    ∃ out, applyResourcePolicy {} exSnapEmpty (fun _ => .error "no role store")
        none "api.test" [] = .ok out ∧
      out.result = .bool true ∧ ∀ s, out.isSetting s = .ok false :=
  claim9_falsy_user_grants_access {} exSnapEmpty (fun _ => .error "no role store")
    none "api.test" [] (Or.inl rfl)

/-- C10: a tenant admin (or a user without a role code) bypasses role
lookup and policies entirely: `findUserPolicyData` yields the empty policy
list without consulting the role oracle, and the per-environment security
data is the `Admin - Full access` form with no policies, dictionary or
resource types. -/
theorem claim10_admin_bypasses_policies (st : ModuleState) (snap : Snapshot)
    (findRole : User → Except String Role) (user : User)
    (ups : UserPolicies) (env : String)
    (h : user.permissionRoleCode = "" ∨ user.tenantAdmin = true) :
    findUserPolicyData st findRole user = .ok { list := [], description := none } ∧
    generateUserSecurityDataByEnvironment st snap user ups env =
      .ok { env := env, user := user,
            description := some "Admin - Full access",
            policies := none, dictionary := none, resourceTypes := none } := by
  constructor
  · unfold findUserPolicyData
    rw [if_pos h]
  · unfold generateUserSecurityDataByEnvironment
    rw [if_pos h]

/-- A tenant admin who nevertheless has a role code. -/
def exAdminUser : User :=
  { permissionRoleCode := "ADMIN", tenantAdmin := true, display := "root",
    id := "1", tenantId := "t1" }

/-- Witness for C10 at a concrete admin user. -/
theorem claim10_witness :
    findUserPolicyData {} (fun _ => .error "unused") exAdminUser =
      .ok { list := [], description := none } ∧
    generateUserSecurityDataByEnvironment {} exSnapEmpty exAdminUser
        { list := [], description := none } "client" =
      .ok { env := "client", user := exAdminUser,
            description := some "Admin - Full access",
            policies := none, dictionary := none, resourceTypes := none } :=
  claim10_admin_bypasses_policies {} exSnapEmpty (fun _ => .error "unused")
    exAdminUser { list := [], description := none } "client" (Or.inr rfl)

/-- C5 (amended): a failed `load` never reassigns `systemSecurityData`, so
the previously loaded snapshot object — if any — remains the value returned
to callers. (The snapshot's attached lookup closures, however, read the
module registries, which the failed load has already partially replaced;
see the counterexample.) -/
theorem claim5_failed_load_keeps_snapshot_reference (s : ServiceState)
    (cfg : SecurityConfig) (e : String)
    (h : (serviceLoad s cfg).2 = .error e) :
    (serviceLoad s cfg).1.systemSecurityData = s.systemSecurityData := by
  unfold serviceLoad at h ⊢
  by_cases hd : cfg.defaultRole = ""
  · rw [if_pos hd]
  · rw [if_neg hd] at h ⊢
    rcases hl : load s.modState cfg with ⟨st2, r⟩
    rw [hl] at h
    cases r with
    | error m => rfl
    | ok snap => exact Except.noConfusion h

/-- A second resource type, present only in the second configuration. -/
def exTypeB : ResourceTypeCfg :=
  { name := "Other", env := some ["client"], apply := none, settings := [] }

/-- A valid configuration declaring the `AppMenuItem` type. -/
def exConfig1 : SecurityConfig :=
  { resourceTypes := [exType], dictionary := [], policies := [],
    conditionFactories := [], defaultRole := "admin" }

/-- An invalid configuration: its types and dictionary load, but its policy
misses the required name. -/
def exConfig2 : SecurityConfig :=
  { resourceTypes := [exTypeB], dictionary := [], policies := [{ name := "" }],
    conditionFactories := [], defaultRole := "admin" }

/-- The service state after the first, successful load. -/
def exServiceState1 : ServiceState := (serviceLoad {} exConfig1).1

/-- C5 counterexample: after a failed reload the old snapshot reference is
still in place, yet the behavior of the snapshot's `find` lookup — a
closure over the module registries — has changed: the type `AppMenuItem`
resolved before the failed reload and no longer does, because the failed
load already replaced the resource-type registry before its policies were
rejected. The claim's `unchanged lookup behavior` is therefore false. -/
theorem claim5_counterexample :
    (serviceLoad {} exConfig1).2 = .ok () ∧
    (serviceLoad exServiceState1 exConfig2).2 =
      .error "Invalid Application Security Configuration" ∧
    (serviceLoad exServiceState1 exConfig2).1.systemSecurityData =
      exServiceState1.systemSecurityData ∧
    (findResourceType exServiceState1.modState "AppMenuItem").isOk = true ∧
    (findResourceType (serviceLoad exServiceState1 exConfig2).1.modState
      "AppMenuItem").isOk = false :=
  ⟨rfl, rfl, rfl, rfl, rfl⟩

/-- Witness for the amended C5 at the concrete failing reload. -/
theorem claim5_witness :
    (serviceLoad exServiceState1 exConfig2).1.systemSecurityData =
      exServiceState1.systemSecurityData :=
  claim5_failed_load_keeps_snapshot_reference exServiceState1 exConfig2
    "Invalid Application Security Configuration" rfl

/-! Part: Environment filtering lemmas (for C8) -/

section FilterLemmas

theorem exceptFilter_ok_iff {α : Type} (p : α → Except String Bool) :
    ∀ (l res : List α), exceptFilter p l = .ok res →
      ∀ x, x ∈ res ↔ x ∈ l ∧ p x = .ok true := by
  intro l
  induction l with
  | nil =>
    intro res h x
    simp only [exceptFilter, Except.ok.injEq] at h
    subst h
    simp
  | cons a rest ih =>
    intro res h x
    rw [exceptFilter] at h
    cases hpa : p a with
    | error e =>
      rw [hpa] at h
      exact absurd h (by simp)
    | ok b =>
      rw [hpa] at h
      cases b with
      | true =>
        cases hrec : exceptFilter p rest with
        | error e =>
          rw [hrec] at h
          exact absurd h (by simp)
        | ok l2 =>
          rw [hrec] at h
          simp only [Except.ok.injEq] at h
          subst h
          constructor
          · intro hx
            rcases List.mem_cons.mp hx with hx | hx
            · subst hx
              exact ⟨by simp, hpa⟩
            · obtain ⟨h1, h2⟩ := (ih l2 hrec x).mp hx
              exact ⟨by simp [h1], h2⟩
          · rintro ⟨hmem, hpx⟩
            rcases List.mem_cons.mp hmem with hx | hx
            · subst hx
              simp
            · exact List.mem_cons_of_mem a ((ih l2 hrec x).mpr ⟨hx, hpx⟩)
      | false =>
        have hiff := ih res h x
        constructor
        · intro hx
          obtain ⟨h1, h2⟩ := hiff.mp hx
          exact ⟨List.mem_cons_of_mem a h1, h2⟩
        · rintro ⟨hmem, hpx⟩
          rcases List.mem_cons.mp hmem with hx | hx
          · subst hx
            rw [hpa] at hpx
            exact absurd hpx (by simp)
          · exact hiff.mpr ⟨hx, hpx⟩

theorem exceptFilter_ok_forall {α : Type} (p : α → Except String Bool) :
    ∀ (l res : List α), exceptFilter p l = .ok res →
      ∀ a ∈ l, ∃ b, p a = .ok b := by
  intro l
  induction l with
  | nil =>
    intro res _ a ha
    cases ha
  | cons a rest ih =>
    intro res h x hx
    rw [exceptFilter] at h
    cases hpa : p a with
    | error e =>
      rw [hpa] at h
      exact absurd h (by simp)
    | ok b =>
      rw [hpa] at h
      rcases List.mem_cons.mp hx with hx | hx
      · subst hx
        exact ⟨b, hpa⟩
      · cases b with
        | true =>
          cases hrec : exceptFilter p rest with
          | error e =>
            rw [hrec] at h
            exact absurd h (by simp)
          | ok l2 => exact ih l2 hrec x hx
        | false => exact ih res h x hx

theorem exceptFilter_eq_filter {α : Type} (p : α → Except String Bool)
    (q : α → Bool) :
    ∀ l : List α, (∀ a ∈ l, p a = .ok (q a)) →
      exceptFilter p l = .ok (l.filter q) := by
  intro l
  induction l with
  | nil =>
    intro _
    rfl
  | cons a rest ih =>
    intro h
    have hpa : p a = .ok (q a) := h a (by simp)
    have hrest : ∀ x ∈ rest, p x = .ok (q x) := fun x hx => h x (by simp [hx])
    rw [exceptFilter, hpa]
    cases hqa : q a with
    | true =>
      rw [ih hrest, List.filter_cons_of_pos (by simp [hqa])]
    | false =>
      rw [ih hrest, List.filter_cons_of_neg (by simp [hqa])]

end FilterLemmas

/-- The grant-level environment test as a boolean (its value whenever
`grantEnvPred` succeeds). -/
def keepGrant (st : ModuleState) (environment : String) (gr : PolicyGrantCfg) :
    Bool :=
  match grantEnvPred st environment gr with
  | .ok b => b
  | .error _ => false

/-- The policy-content environment filter stated from the spec's words:
keep exactly the grants whose resource's type carries the environment tag,
then drop policy settings left without grants. For comparison with
`filterPolicySettingsByEnvironment`. -/
def keepSettings (q : PolicyGrantCfg → Bool)
    (settings : List PolicySettingCfg) : List PolicySettingCfg :=
  (settings.map (fun ps =>
    { ps with
        protectedResources := some ((ps.protectedResources.getD []).filter q) })).filter
    (fun ps => !(ps.protectedResources.getD []).isEmpty)

/-- As `keepSettings`, one level up: drop policies left without settings. -/
def keepPolicies (q : PolicyGrantCfg → Bool)
    (pols : List UserPolicyEntry) : List UserPolicyEntry :=
  (pols.map (fun pe => { pe with settings := keepSettings q pe.settings })).filter
    (fun pe => !pe.settings.isEmpty)

theorem filterPolicySettings_ok_eq (st : ModuleState) (env : String) :
    ∀ (l res : List PolicySettingCfg),
      filterPolicySettingsByEnvironment st env l = .ok res →
      res = keepSettings (keepGrant st env) l := by
  intro l
  induction l with
  | nil =>
    intro res h
    simp only [filterPolicySettingsByEnvironment, Except.ok.injEq] at h
    subst h
    rfl
  | cons ps rest ih =>
    intro res h
    cases hf : exceptFilter (grantEnvPred st env) (ps.protectedResources.getD []) with
    | error e =>
      rw [filterPolicySettingsByEnvironment, hf] at h
      exact absurd h (by simp)
    | ok fl =>
      have hq : ∀ a ∈ (ps.protectedResources.getD []),
          grantEnvPred st env a = .ok (keepGrant st env a) := by
        intro a ha
        obtain ⟨b, hb⟩ := exceptFilter_ok_forall _ _ _ hf a ha
        rw [hb]
        simp [keepGrant, hb]
      have hfl : fl = (ps.protectedResources.getD []).filter (keepGrant st env) := by
        have h2 := exceptFilter_eq_filter _ _ _ hq
        rw [hf] at h2
        exact (Except.ok.injEq _ _).mp h2
      cases hrec : filterPolicySettingsByEnvironment st env rest with
      | error e =>
        rw [filterPolicySettingsByEnvironment, hf, hrec] at h
        exact absurd h (by simp)
      | ok rest2 =>
        have hr2 := ih rest2 hrec
        have hstep : filterPolicySettingsByEnvironment st env (ps :: rest) =
            if fl.isEmpty then Except.ok rest2
            else Except.ok ({ ps with protectedResources := some fl } :: rest2) := by
          simp only [filterPolicySettingsByEnvironment, hf, hrec]
        rw [hstep] at h
        subst hr2
        by_cases he : fl.isEmpty = true
        · rw [if_pos he] at h
          simp only [Except.ok.injEq] at h
          subst h
          have hcond :
              ((ps.protectedResources.getD []).filter (keepGrant st env)).isEmpty = true :=
            hfl ▸ he
          simp [keepSettings, List.filter_cons, hcond]
        · rw [if_neg he] at h
          simp only [Except.ok.injEq] at h
          subst h
          have hcond :
              ((ps.protectedResources.getD []).filter (keepGrant st env)).isEmpty = false := by
            rw [← hfl]
            simpa using he
          simp [keepSettings, List.filter_cons, hcond, hfl]

theorem filterPolicyContent_ok_eq (st : ModuleState) (env : String) :
    ∀ (pols res : List UserPolicyEntry),
      filterPolicyContentByEnvironment st pols env = .ok res →
      res = keepPolicies (keepGrant st env) pols := by
  intro pols
  induction pols with
  | nil =>
    intro res h
    simp only [filterPolicyContentByEnvironment, Except.ok.injEq] at h
    subst h
    rfl
  | cons pe rest ih =>
    intro res h
    cases hf : filterPolicySettingsByEnvironment st env pe.settings with
    | error e =>
      rw [filterPolicyContentByEnvironment, hf] at h
      exact absurd h (by simp)
    | ok fs =>
      have hfs := filterPolicySettings_ok_eq st env pe.settings fs hf
      cases hrec : filterPolicyContentByEnvironment st rest env with
      | error e =>
        rw [filterPolicyContentByEnvironment, hf, hrec] at h
        exact absurd h (by simp)
      | ok rest2 =>
        have hr2 := ih rest2 hrec
        have hstep : filterPolicyContentByEnvironment st (pe :: rest) env =
            if fs.isEmpty then Except.ok rest2
            else Except.ok ({ pe with settings := fs } :: rest2) := by
          simp only [filterPolicyContentByEnvironment, hf, hrec]
        rw [hstep] at h
        subst hfs
        subst hr2
        by_cases he : (keepSettings (keepGrant st env) pe.settings).isEmpty = true
        · rw [if_pos he] at h
          simp only [Except.ok.injEq] at h
          subst h
          simp [keepPolicies, List.filter_cons, he]
        · rw [if_neg he] at h
          simp only [Except.ok.injEq] at h
          subst h
          have hcond : (keepSettings (keepGrant st env) pe.settings).isEmpty = false := by
            simpa using he
          simp [keepPolicies, List.filter_cons, hcond]

theorem dictEnvPred_ok_true_iff (st : ModuleState) (env : String)
    (r : ProtectedResourceCfg) :
    dictEnvPred st env r = .ok true ↔
      ∃ rt, findResourceType st r.type = .ok rt ∧ envHas rt env = true := by
  unfold dictEnvPred
  cases hf : findResourceType st r.type with
  | error e => simp
  | ok rt => simp

/-- A successful non-admin `generateUserSecurityDataByEnvironment` is
exactly the three filters packaged together. -/
theorem generate_ok_decomp (st : ModuleState) (snap : Snapshot) (user : User)
    (ups : UserPolicies) (env : String) (usd : UserSecurityData)
    (hna : ¬(user.permissionRoleCode = "" ∨ user.tenantAdmin = true))
    (hgen : generateUserSecurityDataByEnvironment st snap user ups env = .ok usd) :
    ∃ fp fd, filterPolicyContentByEnvironment st ups.list env = .ok fp ∧
      exceptFilter (dictEnvPred st env) snap.dictionary = .ok fd ∧
      usd = { env := env, user := user, description := ups.description,
              policies := some fp, dictionary := some fd,
              resourceTypes :=
                some (snap.resourceTypes.filter (fun t => envHas t env)) } := by
  unfold generateUserSecurityDataByEnvironment at hgen
  rw [if_neg hna] at hgen
  cases h1 : filterPolicyContentByEnvironment st ups.list env with
  | error e =>
    rw [h1] at hgen
    exact absurd hgen (by simp)
  | ok fp =>
    rw [h1] at hgen
    cases h2 : exceptFilter (dictEnvPred st env) snap.dictionary with
    | error e =>
      rw [h2] at hgen
      exact absurd hgen (by simp)
    | ok fd =>
      rw [h2] at hgen
      simp only [Except.ok.injEq] at hgen
      exact ⟨fp, fd, rfl, rfl, hgen.symm⟩

/-- C8: for a successful non-admin per-environment view, a resource type is
kept exactly when its env list contains the tag; a dictionary entry exactly
when its resolved type's env list contains the tag; the policies are
exactly the grant-level environment filter with emptied settings and
policies dropped (`keepPolicies`); and consequently a resource type
declared for two environments appears in both generated views — so the
client and server views are mutually exclusive only for single-environment
resource types. -/
theorem claim8_environment_filtering (st : ModuleState) (snap : Snapshot)
    (user : User) (ups : UserPolicies) (env : String) (usd : UserSecurityData)
    (hna : ¬(user.permissionRoleCode = "" ∨ user.tenantAdmin = true))
    (hgen : generateUserSecurityDataByEnvironment st snap user ups env = .ok usd) :
    (∃ frt, usd.resourceTypes = some frt ∧
      ∀ rt, rt ∈ frt ↔ rt ∈ snap.resourceTypes ∧ envHas rt env = true) ∧
    (∃ fd, usd.dictionary = some fd ∧
      ∀ r, r ∈ fd ↔ r ∈ snap.dictionary ∧
        ∃ rt, findResourceType st r.type = .ok rt ∧ envHas rt env = true) ∧
    (∃ fp, usd.policies = some fp ∧ fp = keepPolicies (keepGrant st env) ups.list) ∧
    (∀ env2 usd2,
      generateUserSecurityDataByEnvironment st snap user ups env2 = .ok usd2 →
      ∀ rt, rt ∈ snap.resourceTypes → envHas rt env = true →
        envHas rt env2 = true →
        (∃ frt, usd.resourceTypes = some frt ∧ rt ∈ frt) ∧
        (∃ frt2, usd2.resourceTypes = some frt2 ∧ rt ∈ frt2)) := by
  obtain ⟨fp, fd, h1, h2, husd⟩ :=
    generate_ok_decomp st snap user ups env usd hna hgen
  subst husd
  refine ⟨⟨_, rfl, ?_⟩, ⟨fd, rfl, ?_⟩, ⟨fp, rfl, ?_⟩, ?_⟩
  · intro rt
    simp [List.mem_filter]
  · intro r
    rw [exceptFilter_ok_iff _ _ _ h2 r, dictEnvPred_ok_true_iff]
  · exact filterPolicyContent_ok_eq st env ups.list fp h1
  · intro env2 usd2 hgen2 rt hmem hin1 hin2
    obtain ⟨fp2, fd2, g1, g2, husd2⟩ :=
      generate_ok_decomp st snap user ups env2 usd2 hna hgen2
    subst husd2
    constructor
    · exact ⟨_, rfl, List.mem_filter.mpr ⟨hmem, hin1⟩⟩
    · exact ⟨_, rfl, List.mem_filter.mpr ⟨hmem, hin2⟩⟩

/-- A resource type declared for both environments. -/
def exTypeBoth : ResourceTypeCfg :=
  { name := "Both", env := some ["client", "server"],
    apply := some (fun _ _ => .bool true), settings := [] }

/-- Module state for the C8 witness. -/
def ex8St : ModuleState :=
  { dictionary := [exDictEntry], resourceTypes := [exType, exTypeBoth],
    policies := [], conditionFactories := [] }

/-- Snapshot for the C8 witness (arrays equal to the module state, as after
a successful load). -/
def ex8Snap : Snapshot :=
  { conditionFactories := [], dictionary := [exDictEntry],
    resourceTypes := [exType, exTypeBoth], policies := [] }

/-- A plain user holding a role. -/
def ex8User : User := { permissionRoleCode := "mgr" }

/-- The grant of the C8 witness policy. -/
def ex8Grant : PolicyGrantCfg :=
  { resource := "AccountMenu", setting := "hide", params := [] }

/-- The policy setting of the C8 witness policy. -/
def ex8Setting : PolicySettingCfg :=
  { setting := "access", protectedResources := some [ex8Grant] }

/-- The single user policy entry of the C8 witness. -/
def ex8PolicyEntry : UserPolicyEntry :=
  { name := "p1", settings := [ex8Setting] }

/-- User policies for the C8 witness: one policy granting `hide` on
`AccountMenu`. -/
def ex8Ups : UserPolicies :=
  { list := [ex8PolicyEntry], description := some "desc" }

/-- The client view the C8 witness generates. -/
def ex8Usd : UserSecurityData :=
  { env := "client", user := ex8User, description := some "desc",
    policies := some [ex8PolicyEntry],
    dictionary := some [exDictEntry],
    resourceTypes := some [exType, exTypeBoth] }

/-- Witness for C8 at a concrete client view. -/
theorem claim8_witness :
    (∃ frt, ex8Usd.resourceTypes = some frt ∧
      ∀ rt, rt ∈ frt ↔ rt ∈ ex8Snap.resourceTypes ∧ envHas rt "client" = true) ∧
    (∃ fd, ex8Usd.dictionary = some fd ∧
      ∀ r, r ∈ fd ↔ r ∈ ex8Snap.dictionary ∧
        ∃ rt, findResourceType ex8St r.type = .ok rt ∧ envHas rt "client" = true) ∧
    (∃ fp, ex8Usd.policies = some fp ∧
      fp = keepPolicies (keepGrant ex8St "client") ex8Ups.list) ∧
    (∀ env2 usd2,
      generateUserSecurityDataByEnvironment ex8St ex8Snap ex8User ex8Ups env2 =
        .ok usd2 →
      ∀ rt, rt ∈ ex8Snap.resourceTypes → envHas rt "client" = true →
        envHas rt env2 = true →
        (∃ frt, ex8Usd.resourceTypes = some frt ∧ rt ∈ frt) ∧
        (∃ frt2, usd2.resourceTypes = some frt2 ∧ rt ∈ frt2)) :=
  claim8_environment_filtering ex8St ex8Snap ex8User ex8Ups "client" ex8Usd
    (by decide) rfl

end ZervSecurity
